import Mathlib

/-!
Shallow embedding of the notes-backend HTTP service (`src/main.py`): a small
read-only FastAPI app over a MongoDB collection of note documents.  The
collection is modelled as a `List Doc` in the store's natural order; MongoDB
`find`/`count_documents`/`aggregate` calls are modelled by list operations
faithful to their documented semantics.  `HTTPException`s raised inside each
handler's `try` block are caught by its blanket `except Exception` clause and
re-raised as status 500 with `str(e)` as detail; `wrap` models exactly that
exception flow.
-/

/-- BSON-style field values occurring in the notes collection: strings,
ObjectIds (modelled as an opaque `Nat`), and null. -/
inductive BVal where
  | str : String → BVal
  | oid : Nat → BVal
  | vnull : BVal
deriving DecidableEq, Repr

/-- A MongoDB document, modelled as an insertion-ordered association list of
field names to values (mirroring a Python dict with unique keys). -/
abbrev Doc := List (String × BVal)

/-- First value bound to key `k` in the document, mirroring dict lookup. -/
def lookupField (d : Doc) (k : String) : Option BVal :=
  match d with
  | [] => none
  | (k', v) :: rest => if k' = k then some v else lookupField rest k

/-- Python dict assignment `doc[k] = v`: overwrite in place if the key is
present, else append at the end (insertion order). -/
def setField (k : String) (v : BVal) : Doc → Doc
  | [] => [(k, v)]
  | (k', v') :: rest => if k' = k then (k', v) :: rest else (k', v') :: setField k v rest

/-- Python `del doc[k]`: remove the binding for `k`. -/
def removeField (k : String) : Doc → Doc
  | [] => []
  | (k', v') :: rest => if k' = k then removeField k rest else (k', v') :: removeField k rest

/-- Python `str(...)` on a stored value (for ObjectIds, the hex string; any
injective rendering models it). -/
def bvalToString : BVal → String
  | .str s => s
  | .oid n => toString n
  | .vnull => "None"

/-- `serialize_doc` from `src/main.py`: if the document has an `_id` field,
set `id` to its string form and delete `_id`; otherwise return it unchanged. -/
def serialize_doc (doc : Doc) : Doc :=
  match lookupField doc "_id" with
  | some v => removeField "_id" (setField "id" (BVal.str (bvalToString v)) doc)
  | none => doc

/-- `serialize_docs` from `src/main.py` (the `.copy()` is identity here). -/
def serialize_docs (docs : List Doc) : List Doc := docs.map serialize_doc

/-- PCRE metacharacters: a pattern free of these is matched literally by the
regex engine. -/
def pcreMeta : List Char := ['.', '^', '$', '*', '+', '?', '(', ')', '[', ']', '\x7b', '\x7d', '|', '\\']

/-- Case-insensitive single-character match of pattern char `p` against text
char `c`, with the wildcard `.` matching anything. -/
def charMatchCI (p c : Char) : Bool :=
  if p = '.' then true else p.toLower == c.toLower

/-- Does the pattern match a text starting at its first character?  Models
anchored matching for the regex fragment of ordinary characters plus `.`. -/
def matchHere : List Char → List Char → Bool
  | [], _ => true
  | _ :: _, [] => false
  | p :: ps, c :: cs => charMatchCI p c && matchHere ps cs

/-- MongoDB `$regex` with option `"i"`: the pattern matches the string if it
matches at some position.  Modelled for the fragment of patterns made of
ordinary characters and the `.` wildcard (the engine itself is external to
the repository; this follows its documented semantics on that fragment). -/
def regexSearch (p : List Char) : List Char → Bool
  | [] => matchHere p []
  | c :: cs => matchHere p (c :: cs) || regexSearch p cs

/-- String field access: the value of field `k` if present and a string.
`$regex` conditions only ever match string-valued fields. -/
def fieldStr (d : Doc) (k : String) : Option String :=
  match lookupField d k with
  | some (.str s) => some s
  | _ => none

/-- The condition `{k: {"$regex": pat, "$options": "i"}}` on one document. -/
def regexCond (d : Doc) (k : String) (pat : String) : Bool :=
  match fieldStr d k with
  | some s => regexSearch pat.data s.data
  | none => false

/-- Modelled from the spec: case-insensitive check that the text begins with
the query, literally character by character. -/
def ciStarts : List Char → List Char → Bool
  | [], _ => true
  | _ :: _, [] => false
  | p :: ps, c :: cs => (p.toLower == c.toLower) && ciStarts ps cs

/-- Modelled from the spec: "case-insensitively contains `q` as a substring"
— the query occurs literally in the text at some position, ignoring case. -/
def ciSub (p : List Char) : List Char → Bool
  | [] => ciStarts p []
  | c :: cs => ciStarts p (c :: cs) || ciSub p cs

/-- FastAPI `HTTPException`: a status code and a detail message. -/
structure HTTPException where
  status_code : Nat
  detail : String
deriving DecidableEq, Repr

/-- Python `str(e)` on an `HTTPException` renders as "status: detail". -/
def excStr (e : HTTPException) : String := toString e.status_code ++ ": " ++ e.detail

/-- The `try`/`except Exception as e: raise HTTPException(500, str(e))`
pattern shared by every handler.  An `HTTPException` raised in the body is an
`Exception`, so it is caught and re-raised as a 500. -/
def wrap {α : Type} (x : Except HTTPException α) : Except HTTPException α :=
  match x with
  | .ok v => .ok v
  | .error e => .error ⟨500, excStr e⟩

/-- Response shape of `GET /notes/`. -/
structure NotesResp where
  results : List Doc
  count : Nat
  next : Option String
  previous : Option String
deriving DecidableEq, Repr

/-- `math.ceil(count / limit)` for naturals (exact ceiling division). -/
def ceilPages (count limit : Nat) : Nat := (count + limit - 1) / limit

/-- `get_notes` from `src/main.py`: paginated listing.  The handler body has
no raise, so it always produces a response. -/
def get_notes (page limit : Nat) (coll : List Doc) : NotesResp :=
  let skip := (page - 1) * limit
  let total_count := coll.length
  let notes := (coll.drop skip).take limit
  let total_pages := ceilPages total_count limit
  { results := serialize_docs notes
    count := total_count
    next := if page < total_pages then
        some ("/notes/?page=" ++ toString (page + 1) ++ "&limit=" ++ toString limit)
      else none
    previous := if page > 1 then
        some ("/notes/?page=" ++ toString (page - 1) ++ "&limit=" ++ toString limit)
      else none }

/-- Response shape of `GET /notes/search/`. -/
structure SearchResp where
  data : List Doc
deriving DecidableEq, Repr

/-- The Mongo equality condition `{"folder": name}` on one document. -/
def folderEq (name : String) (d : Doc) : Bool :=
  decide (lookupField d "folder" = some (BVal.str name))

/-- The filter document built by `search_notes`: `$or` of case-insensitive
regexes on `title` and `body`, plus `folder` equality when the Python-truthy
check `if folder:` accepts the parameter (it rejects both `None` and `""`). -/
def searchPred (q : String) (folder : Option String) (d : Doc) : Bool :=
  let orCond := regexCond d "title" q || regexCond d "body" q
  match folder with
  | some f => if f = "" then orCond else orCond && folderEq f d
  | none => orCond

/-- `search_notes` from `src/main.py`: no raise in the body, so always a
response. -/
def search_notes (q : String) (folder : Option String) (coll : List Doc) : SearchResp :=
  ⟨serialize_docs (coll.filter (searchPred q folder))⟩

/-- Response shape of `GET /notes/random/`. -/
structure RandomResp where
  data : Doc
deriving DecidableEq, Repr

/-- Mongo `{"$sample": {"size": 1}}`: one document chosen from the
collection (empty result on an empty collection).  The random choice is
modelled by the `seed` index. -/
def sampleOne (seed : Nat) (coll : List Doc) : List Doc :=
  match coll[seed % coll.length]? with
  | some d => [d]
  | none => []

/-- `get_random_note` from `src/main.py`.  The 404 raised on an empty sample
is inside the `try` block, hence re-wrapped by `wrap`. -/
def get_random_note (seed : Nat) (coll : List Doc) : Except HTTPException RandomResp :=
  wrap (match sampleOne seed coll with
    | [] => .error ⟨404, "No notes found"⟩
    | note :: _ => .ok ⟨serialize_doc note⟩)

/-- `$group` key `"$folder"`: a document missing the field groups under
null. -/
def folderKey (d : Doc) : BVal := (lookupField d "folder").getD BVal.vnull

/-- Add one occurrence of group key `k` to the running group counts. -/
def addToGroups (k : BVal) : List (BVal × Nat) → List (BVal × Nat)
  | [] => [(k, 1)]
  | (k', n) :: rest => if k' = k then (k', n + 1) :: rest else (k', n) :: addToGroups k rest

/-- The `$group` stage `{_id: "$folder", note_count: {"$sum": 1}}`: distinct
folder keys with the number of notes carrying each. -/
def groupFolders : List Doc → List (BVal × Nat)
  | [] => []
  | d :: ds => addToGroups (folderKey d) (groupFolders ds)

/-- The `$sort` order `{note_count: -1}`: larger counts first. -/
def countDesc (a b : BVal × Nat) : Prop := b.2 ≤ a.2

instance : DecidableRel countDesc := fun a b => Nat.decLe b.2 a.2

instance : IsTotal (BVal × Nat) countDesc := ⟨fun a b => Nat.le_total b.2 a.2⟩

instance : IsTrans (BVal × Nat) countDesc := ⟨fun _ _ _ hab hbc => Nat.le_trans hbc hab⟩

/-- One element of the `GET /folders/` response. -/
structure FolderEntry where
  name : BVal
  note_count : Nat
deriving DecidableEq, Repr

/-- Response shape of `GET /folders/`. -/
structure FoldersResp where
  data : List FolderEntry
deriving DecidableEq, Repr

/-- `get_folders` from `src/main.py`: group by folder, sort by count
descending, project to name and count. -/
def get_folders (coll : List Doc) : FoldersResp :=
  ⟨((groupFolders coll).insertionSort countDesc).map (fun g => ⟨g.1, g.2⟩)⟩

/-- One element of the `GET /folders/search/` response. -/
structure FolderNameEntry where
  name : String
deriving DecidableEq, Repr

/-- Response shape of `GET /folders/search/`. -/
structure FolderSearchResp where
  data : List FolderNameEntry
deriving DecidableEq, Repr

/-- `search_folders` from `src/main.py`: distinct folder keys, filtered by a
case-insensitive regex `$match` on the key (which only matches string keys),
projected to names and sorted ascending. -/
def search_folders (q : String) (coll : List Doc) : FolderSearchResp :=
  let keys := (groupFolders coll).map Prod.fst
  let matched := keys.filterMap (fun k =>
    match k with
    | BVal.str s => if regexSearch q.data s.data then some s else none
    | _ => none)
  ⟨(matched.insertionSort (· ≤ ·)).map (fun s => ⟨s⟩)⟩

/-- Payload of `GET /folders/{name}`. -/
structure FolderNotesData where
  folder_name : String
  note_count : Nat
  notes : List Doc
deriving DecidableEq, Repr

/-- Response shape of `GET /folders/{name}`. -/
structure FolderNotesResp where
  data : FolderNotesData
deriving DecidableEq, Repr

/-- `get_folder_with_notes` from `src/main.py`.  The 404 on an empty result
is raised inside `try`, hence re-wrapped by `wrap`. -/
def get_folder_with_notes (folder_name : String) (coll : List Doc) :
    Except HTTPException FolderNotesResp :=
  wrap (
    let notes := coll.filter (folderEq folder_name)
    if notes.isEmpty then .error ⟨404, "Folder not found or no notes in folder"⟩
    else .ok ⟨⟨folder_name, notes.length, serialize_docs notes⟩⟩)

/-- Response shape of `GET /notes/by-folder/{name}`. -/
structure ByFolderResp where
  results : List Doc
  count : Nat
  folder : String
  next : Option String
  previous : Option String
deriving DecidableEq, Repr

/-- `get_notes_by_folder` from `src/main.py`: folder-scoped pagination; the
404 on a zero count is raised inside `try`, hence re-wrapped by `wrap`. -/
def get_notes_by_folder (folder_name : String) (page limit : Nat) (coll : List Doc) :
    Except HTTPException ByFolderResp :=
  wrap (
    let skip := (page - 1) * limit
    let fnotes := coll.filter (folderEq folder_name)
    let total_count := fnotes.length
    if total_count = 0 then .error ⟨404, "Folder not found or no notes in folder"⟩
    else
      let notes := (fnotes.drop skip).take limit
      let total_pages := ceilPages total_count limit
      .ok { results := serialize_docs notes
            count := total_count
            folder := folder_name
            next := if page < total_pages then
                some ("/notes/by-folder/" ++ folder_name ++ "?page=" ++ toString (page + 1) ++ "&limit=" ++ toString limit)
              else none
            previous := if page > 1 then
                some ("/notes/by-folder/" ++ folder_name ++ "?page=" ++ toString (page - 1) ++ "&limit=" ++ toString limit)
              else none })

/-- The `next` link of a by-folder response, `none` on a failed request. -/
def exNext : Except HTTPException ByFolderResp → Option String
  | .ok r => r.next
  | .error _ => none

/-- The `previous` link of a by-folder response, `none` on a failed
request. -/
def exPrev : Except HTTPException ByFolderResp → Option String
  | .ok r => r.previous
  | .error _ => none

/-- Modelled from the spec: the claimed match criterion on one document —
the field `k`, when present and string-valued, case-insensitively contains
the query as a literal substring. -/
def ciSubField (d : Doc) (k : String) (q : String) : Bool :=
  match fieldStr d k with
  | some s => ciSub q.data s.data
  | none => false

/-- A sample stored note document with the given id, title, body and
folder. -/
def noteDoc (n : Nat) (t b f : String) : Doc :=
  [("_id", BVal.oid n), ("title", BVal.str t), ("body", BVal.str b), ("folder", BVal.str f)]

/-- A sample collection: three notes in folder "A", two in folder "B". -/
def collAB : List Doc :=
  [noteDoc 1 "Hello World" "x" "A", noteDoc 2 "t2" "b2" "A", noteDoc 3 "t3" "b3" "A",
   noteDoc 4 "t4" "b4" "B", noteDoc 5 "t5" "b5" "B"]

/-- A note whose title is "abc" and whose body is empty. -/
def noteAbc : Doc := noteDoc 1 "abc" "" "A"

/-- Well-formed collection: every stored document carries an `_id` field
(the store assigns one to every document). -/
abbrev wfColl (coll : List Doc) : Prop := ∀ d ∈ coll, (lookupField d "_id").isSome = true

/-- The claimed shape of a serialized note: it has no `_id` field, and its
`id` field is the string form of the store identifier of some document of
the collection it was drawn from. -/
def idOk (coll : List Doc) (d : Doc) : Prop :=
  lookupField d "_id" = none ∧
  ∃ d₀ ∈ coll, ∃ v, lookupField d₀ "_id" = some v ∧
    lookupField d "id" = some (BVal.str (bvalToString v))

lemma sum_addToGroups (k : BVal) (gs : List (BVal × Nat)) :
    ((addToGroups k gs).map Prod.snd).sum = (gs.map Prod.snd).sum + 1 := by
  induction gs with
  | nil => simp [addToGroups]
  | cons g rest ih =>
    obtain ⟨k', n⟩ := g
    by_cases h : k' = k <;> simp [addToGroups, h, ih] <;> omega

lemma sum_groupFolders (coll : List Doc) :
    ((groupFolders coll).map Prod.snd).sum = coll.length := by
  induction coll with
  | nil => rfl
  | cons d ds ih => simp [groupFolders, sum_addToGroups, ih]

/-- C1: claim says random-note on an empty collection fails with HTTP 404;
the code raises the 404 inside the handler's `try` block, where the blanket
`except Exception` catches it and re-raises it as HTTP 500 carrying the
stringified 404 as its detail.  Evaluating the handler on the empty
collection exhibits the 500. -/
theorem c1_random_empty_collection_returns_500 :
    get_random_note 0 [] = .error ⟨500, "404: No notes found"⟩ := rfl

/-- C2: claim says both folder endpoints fail with HTTP 404 when zero notes
have the requested folder value; in the code both 404s are raised inside the
`try` block and re-wrapped as HTTP 500 by the blanket `except Exception`.
Evaluating both handlers on a collection with no folder "Z" exhibits the
500s. -/
theorem c2_zero_match_folder_returns_500 :
    get_folder_with_notes "Z" collAB =
      .error ⟨500, "404: Folder not found or no notes in folder"⟩ ∧
    get_notes_by_folder "Z" 1 50 collAB =
      .error ⟨500, "404: Folder not found or no notes in folder"⟩ := by
  exact ⟨rfl, rfl⟩

/-- C6: in the folder listing, the note counts of the returned groups sum to
the total number of notes in the collection. -/
theorem c6_folder_counts_sum_to_total (coll : List Doc) :
    (((get_folders coll).data.map FolderEntry.note_count)).sum = coll.length := by
  unfold get_folders
  rw [List.map_map]
  have h1 : (FolderEntry.note_count ∘ fun g : BVal × Nat => (⟨g.1, g.2⟩ : FolderEntry))
      = Prod.snd := rfl
  rw [h1]
  rw [List.Perm.sum_eq ((List.perm_insertionSort countDesc (groupFolders coll)).map Prod.snd)]
  exact sum_groupFolders coll

/-- C7: the folder listing is sorted descending by note count, and the
folder search result is sorted ascending by name. -/
theorem c7_folder_orderings (coll : List Doc) (q : String) :
    List.Sorted (fun a b : FolderEntry => b.note_count ≤ a.note_count)
      (get_folders coll).data ∧
    List.Sorted (fun a b : FolderNameEntry => a.name ≤ b.name)
      (search_folders q coll).data := by
  constructor
  · exact (List.sorted_insertionSort countDesc (groupFolders coll)).map _ (fun a b h => h)
  · exact (List.sorted_insertionSort (· ≤ ·) _).map _ (fun a b h => h)

/-- C9: in the search endpoint, a `folder` parameter equal to the empty
string is treated exactly as an absent `folder` parameter, because the
Python truthiness check `if folder:` rejects the empty string. -/
theorem c9_empty_folder_param_ignored (q : String) (coll : List Doc) :
    search_notes q (some "") coll = search_notes q none coll := rfl

lemma lt_ceilPages_iff (c l p : Nat) (hl : 1 ≤ l) : p < ceilPages c l ↔ p * l < c := by
  unfold ceilPages
  constructor
  · intro h
    have h1 : p + 1 ≤ (c + l - 1) / l := h
    rw [Nat.le_div_iff_mul_le hl] at h1
    have h2 : (p + 1) * l = p * l + l := by ring
    rw [h2] at h1
    revert h1
    generalize p * l = M
    intro h1
    omega
  · intro h
    show p + 1 ≤ (c + l - 1) / l
    rw [Nat.le_div_iff_mul_le hl]
    have h2 : (p + 1) * l = p * l + l := by ring
    rw [h2]
    revert h
    generalize p * l = M
    intro h
    omega

lemma skip_past_end (c l page : Nat) (hl : 1 ≤ l) (hp : ceilPages c l < page) :
    c ≤ (page - 1) * l := by
  have h2 : ¬ (page ≤ (c + l - 1) / l) := Nat.not_le.mpr hp
  rw [Nat.le_div_iff_mul_le hl] at h2
  rw [Nat.sub_one_mul]
  revert h2
  generalize page * l = M
  intro h2
  omega

/-- C4: for every valid page and limit and every collection, the unfiltered
listing's `next` link is non-null exactly when `page < ceil(count/limit)`,
equivalently when `page * limit < count`, and its `previous` link is
non-null exactly when `page > 1`; on the folder-scoped listing's success
responses (when the folder has at least one note) the same holds with
`count` scoped to the folder. -/
theorem c4_pagination_links (page limit : Nat) (coll : List Doc) (fname : String)
    (hp : 1 ≤ page) (hl1 : 1 ≤ limit) (hl2 : limit ≤ 100) :
    ((get_notes page limit coll).next ≠ none ↔ page < ceilPages coll.length limit) ∧
    (page < ceilPages coll.length limit ↔ page * limit < coll.length) ∧
    ((get_notes page limit coll).previous ≠ none ↔ 1 < page) ∧
    (0 < (coll.filter (folderEq fname)).length →
      ((exNext (get_notes_by_folder fname page limit coll) ≠ none ↔
         page * limit < (coll.filter (folderEq fname)).length) ∧
       (exPrev (get_notes_by_folder fname page limit coll) ≠ none ↔ 1 < page))) := by
  refine ⟨?_, lt_ceilPages_iff _ _ _ hl1, ?_, ?_⟩
  · simp only [get_notes]
    by_cases h : page < ceilPages coll.length limit <;> simp [h]
  · simp only [get_notes]
    by_cases h : 1 < page <;> simp [h]
  · intro hf
    have hfz : ¬ ((coll.filter (folderEq fname)).length = 0) := by omega
    constructor
    · simp only [get_notes_by_folder, wrap, hfz, if_neg hfz, exNext]
      rw [← lt_ceilPages_iff _ _ _ hl1]
      by_cases h : page < ceilPages (coll.filter (folderEq fname)).length limit <;> simp [h]
    · simp only [get_notes_by_folder, wrap, hfz, if_neg hfz, exPrev]
      by_cases h : 1 < page <;> simp [h]

/-- C4 witness: page 1, limit 2, the five-note sample collection, folder
"A". -/
theorem c4_pagination_links_witness :
    1 ≤ 1 ∧ 1 ≤ 2 ∧ 2 ≤ 100 ∧
    (((get_notes 1 2 collAB).next ≠ none ↔ 1 < ceilPages collAB.length 2) ∧
     (1 < ceilPages collAB.length 2 ↔ 1 * 2 < collAB.length) ∧
     ((get_notes 1 2 collAB).previous ≠ none ↔ 1 < 1) ∧
     (0 < (collAB.filter (folderEq "A")).length →
       ((exNext (get_notes_by_folder "A" 1 2 collAB) ≠ none ↔
          1 * 2 < (collAB.filter (folderEq "A")).length) ∧
        (exPrev (get_notes_by_folder "A" 1 2 collAB) ≠ none ↔ 1 < 1)))) :=
  ⟨by decide, by decide, by decide,
   c4_pagination_links 1 2 collAB "A" (by decide) (by decide) (by decide)⟩

/-- C5: for valid `page` and `limit`, the unfiltered listing returns exactly
the window of the collection starting at `skip = (page-1)*limit`, at most
`limit` notes, and a `count` equal to the size of the whole collection. -/
theorem c5_window_and_count (page limit : Nat) (coll : List Doc)
    (hp : 1 ≤ page) (hl1 : 1 ≤ limit) (hl2 : limit ≤ 100) :
    (get_notes page limit coll).results =
      serialize_docs ((coll.drop ((page - 1) * limit)).take limit) ∧
    (get_notes page limit coll).results.length ≤ limit ∧
    (get_notes page limit coll).count = coll.length := by
  refine ⟨rfl, ?_, rfl⟩
  show (serialize_docs ((coll.drop ((page - 1) * limit)).take limit)).length ≤ limit
  rw [serialize_docs, List.length_map, List.length_take]
  exact min_le_left _ _

/-- C5 witness: page 2, limit 2 over the five-note sample collection. -/
theorem c5_window_and_count_witness :
    1 ≤ 2 ∧ 1 ≤ 2 ∧ 2 ≤ 100 ∧
    ((get_notes 2 2 collAB).results = serialize_docs ((collAB.drop ((2 - 1) * 2)).take 2) ∧
     (get_notes 2 2 collAB).results.length ≤ 2 ∧
     (get_notes 2 2 collAB).count = collAB.length) :=
  ⟨by decide, by decide, by decide,
   c5_window_and_count 2 2 collAB (by decide) (by decide) (by decide)⟩

/-- C10: a request for any page past the last one still succeeds on the
unfiltered listing (the handler body has no raise): empty `results`, the
true total `count`, and a null `next` link. -/
theorem c10_page_past_end_succeeds (page limit : Nat) (coll : List Doc)
    (hl : 1 ≤ limit) (hp : ceilPages coll.length limit < page) :
    (get_notes page limit coll).results = [] ∧
    (get_notes page limit coll).count = coll.length ∧
    (get_notes page limit coll).next = none := by
  have key : coll.length ≤ (page - 1) * limit := skip_past_end _ _ _ hl hp
  refine ⟨?_, rfl, ?_⟩
  · show serialize_docs ((coll.drop ((page - 1) * limit)).take limit) = []
    rw [List.drop_eq_nil_of_le key, List.take_nil]
    rfl
  · show (if page < ceilPages coll.length limit then
        some ("/notes/?page=" ++ toString (page + 1) ++ "&limit=" ++ toString limit)
      else none) = none
    rw [if_neg (by omega)]

/-- C10 witness: page 7, limit 2 over the five-note sample collection (its
last page is 3). -/
theorem c10_page_past_end_succeeds_witness :
    1 ≤ 2 ∧ ceilPages collAB.length 2 < 7 ∧
    ((get_notes 7 2 collAB).results = [] ∧
     (get_notes 7 2 collAB).count = collAB.length ∧
     (get_notes 7 2 collAB).next = none) :=
  ⟨by decide, by decide, c10_page_past_end_succeeds 7 2 collAB (by decide) (by decide)⟩

lemma lookupField_removeField_self (k : String) (d : Doc) :
    lookupField (removeField k d) k = none := by
  induction d with
  | nil => rfl
  | cons p rest ih =>
    obtain ⟨k', v⟩ := p
    by_cases h : k' = k <;> simp [removeField, lookupField, h, ih]

lemma lookupField_removeField_ne (k k₂ : String) (d : Doc) (h : k ≠ k₂) :
    lookupField (removeField k d) k₂ = lookupField d k₂ := by
  induction d with
  | nil => rfl
  | cons p rest ih =>
    obtain ⟨k', v⟩ := p
    by_cases h1 : k' = k
    · subst h1
      simp [removeField, lookupField, h, ih]
    · simp [removeField, lookupField, h1, ih]

lemma lookupField_setField_self (k : String) (v : BVal) (d : Doc) :
    lookupField (setField k v d) k = some v := by
  induction d with
  | nil => simp [setField, lookupField]
  | cons p rest ih =>
    obtain ⟨k', v'⟩ := p
    by_cases h : k' = k <;> simp [setField, lookupField, h, ih]

lemma serialize_doc_id (d : Doc) (v : BVal) (h : lookupField d "_id" = some v) :
    lookupField (serialize_doc d) "id" = some (BVal.str (bvalToString v)) ∧
    lookupField (serialize_doc d) "_id" = none := by
  unfold serialize_doc
  rw [h]
  constructor
  · rw [lookupField_removeField_ne _ _ _ (by decide)]
    exact lookupField_setField_self _ _ _
  · exact lookupField_removeField_self _ _

lemma idOk_serialize_of_mem (coll : List Doc) (h : wfColl coll) (d₀ : Doc)
    (hd : d₀ ∈ coll) : idOk coll (serialize_doc d₀) := by
  have hs := h d₀ hd
  obtain ⟨v, hv⟩ := Option.isSome_iff_exists.mp hs
  obtain ⟨h1, h2⟩ := serialize_doc_id d₀ v hv
  exact ⟨h2, d₀, hd, v, hv, h1⟩

lemma mem_sampleOne (seed : Nat) (coll : List Doc) (d : Doc)
    (h : d ∈ sampleOne seed coll) : d ∈ coll := by
  unfold sampleOne at h
  cases hg : coll[seed % coll.length]? with
  | none => rw [hg] at h; simp at h
  | some x =>
    rw [hg] at h
    simp at h
    subst h
    obtain ⟨hn, rfl⟩ := List.getElem?_eq_some.mp hg
    exact List.getElem_mem _

lemma idOk_serialize_docs (coll : List Doc) (h : wfColl coll) (sub : List Doc)
    (hsub : ∀ x ∈ sub, x ∈ coll) (d : Doc) (hd : d ∈ serialize_docs sub) :
    idOk coll d := by
  rw [serialize_docs, List.mem_map] at hd
  obtain ⟨d₀, hd₀, rfl⟩ := hd
  exact idOk_serialize_of_mem coll h d₀ (hsub d₀ hd₀)

/-- C8: on a collection in which the store has assigned every document an
`_id`, every note document appearing in any successful response of any
endpoint has no `_id` field and carries an `id` field holding the string
form of the store identifier of a collection document. -/
theorem c8_responses_expose_string_id (coll : List Doc) (seed page limit : Nat)
    (q fname : String) (folder : Option String) (h : wfColl coll) :
    (∀ d ∈ (get_notes page limit coll).results, idOk coll d) ∧
    (∀ d ∈ (search_notes q folder coll).data, idOk coll d) ∧
    (∀ r, get_random_note seed coll = .ok r → idOk coll r.data) ∧
    (∀ r, get_folder_with_notes fname coll = .ok r →
      ∀ d ∈ r.data.notes, idOk coll d) ∧
    (∀ r, get_notes_by_folder fname page limit coll = .ok r →
      ∀ d ∈ r.results, idOk coll d) := by
  refine ⟨?_, ?_, ?_, ?_, ?_⟩
  · intro d hd
    refine idOk_serialize_docs coll h _ ?_ d hd
    intro x hx
    exact List.mem_of_mem_drop (List.mem_of_mem_take hx)
  · intro d hd
    refine idOk_serialize_docs coll h _ ?_ d hd
    intro x hx
    exact List.mem_of_mem_filter hx
  · intro r hr
    unfold get_random_note wrap at hr
    cases hs : sampleOne seed coll with
    | nil => rw [hs] at hr; simp at hr
    | cons note rest =>
      rw [hs] at hr
      simp at hr
      subst hr
      exact idOk_serialize_of_mem coll h note (mem_sampleOne seed coll note (hs ▸ List.mem_cons_self _ _))
  · intro r hr
    unfold get_folder_with_notes wrap at hr
    by_cases he : (coll.filter (folderEq fname)).isEmpty
    · rw [if_pos he] at hr; simp at hr
    · rw [if_neg he] at hr
      simp at hr
      subst hr
      intro d hd
      refine idOk_serialize_docs coll h _ ?_ d hd
      intro x hx
      exact List.mem_of_mem_filter hx
  · intro r hr
    unfold get_notes_by_folder wrap at hr
    by_cases he : (coll.filter (folderEq fname)).length = 0
    · rw [if_pos he] at hr; simp at hr
    · rw [if_neg he] at hr
      simp at hr
      subst hr
      intro d hd
      refine idOk_serialize_docs coll h _ ?_ d hd
      intro x hx
      exact List.mem_of_mem_filter (List.mem_of_mem_drop (List.mem_of_mem_take hx))

/-- C8 witness: the five-note sample collection, every document of which has
an `_id`. -/
theorem c8_responses_expose_string_id_witness :
    wfColl collAB ∧
    ((∀ d ∈ (get_notes 1 2 collAB).results, idOk collAB d) ∧
     (∀ d ∈ (search_notes "t" none collAB).data, idOk collAB d) ∧
     (∀ r, get_random_note 0 collAB = .ok r → idOk collAB r.data) ∧
     (∀ r, get_folder_with_notes "A" collAB = .ok r →
       ∀ d ∈ r.data.notes, idOk collAB d) ∧
     (∀ r, get_notes_by_folder "A" 1 2 collAB = .ok r →
       ∀ d ∈ r.results, idOk collAB d)) :=
  ⟨by decide, c8_responses_expose_string_id collAB 0 1 2 "t" "A" none (by decide)⟩

lemma matchHere_eq_ciStarts (p : List Char) (h : ∀ c ∈ p, c ≠ '.') :
    ∀ s, matchHere p s = ciStarts p s := by
  induction p with
  | nil => intro s; rfl
  | cons pc ps ih =>
    intro s
    cases s with
    | nil => rfl
    | cons c cs =>
      have hpc : pc ≠ '.' := h pc (List.mem_cons_self _ _)
      have ihs := ih (fun c hc => h c (List.mem_cons_of_mem _ hc)) cs
      simp [matchHere, ciStarts, charMatchCI, hpc, ihs]

lemma regexSearch_eq_ciSub (p : List Char) (h : ∀ c ∈ p, c ≠ '.') :
    ∀ s, regexSearch p s = ciSub p s := by
  intro s
  induction s with
  | nil => exact matchHere_eq_ciStarts p h []
  | cons c cs ih => simp [regexSearch, ciSub, matchHere_eq_ciStarts p h, ih]

lemma ciStarts_iff (p : List Char) :
    ∀ s, ciStarts p s = true ↔ ∃ t, s.map Char.toLower = p.map Char.toLower ++ t := by
  induction p with
  | nil =>
    intro s
    simp [ciStarts]
  | cons pc ps ih =>
    intro s
    cases s with
    | nil =>
      simp [ciStarts]
    | cons c cs =>
      simp only [ciStarts, List.map_cons, Bool.and_eq_true, beq_iff_eq, ih cs]
      constructor
      · rintro ⟨h1, t, h2⟩
        exact ⟨t, by simp [h1, h2]⟩
      · rintro ⟨t, h2⟩
        simp only [List.cons_append, List.cons.injEq] at h2
        exact ⟨h2.1.symm, t, h2.2⟩

lemma ciSub_iff (p : List Char) :
    ∀ s, ciSub p s = true ↔ ∃ u t, s.map Char.toLower = u ++ p.map Char.toLower ++ t := by
  intro s
  induction s with
  | nil =>
    simp only [ciSub, ciStarts_iff]
    constructor
    · rintro ⟨t, h⟩
      exact ⟨[], t, by simpa using h⟩
    · rintro ⟨u, t, h⟩
      simp only [List.map_nil] at h
      have hu : u = [] := by
        cases u with
        | nil => rfl
        | cons x xs => simp at h
      subst hu
      exact ⟨t, by simpa using h⟩
  | cons c cs ih =>
    simp only [ciSub, Bool.or_eq_true, ciStarts_iff, ih]
    constructor
    · rintro (⟨t, ht⟩ | ⟨u, t, ht⟩)
      · exact ⟨[], t, by simpa using ht⟩
      · exact ⟨c.toLower :: u, t, by simp [ht]⟩
    · rintro ⟨u, t, ht⟩
      cases u with
      | nil => exact Or.inl ⟨t, by simpa using ht⟩
      | cons x u₂ =>
        simp only [List.map_cons, List.cons_append, List.cons.injEq] at ht
        exact Or.inr ⟨u₂, t, ht.2⟩

/-- C3 counterexample: the claim asserts literal substring matching for all
queries including those with special characters, but the query is passed to
the store as a regular-expression pattern.  With the one-note collection
whose title is "abc" and body is empty, the query "a.c" returns the note
although neither field contains "a.c" as a literal substring (the `.` is
interpreted as a wildcard). -/
theorem c3_special_character_counterexample :
    serialize_doc noteAbc ∈ (search_notes "a.c" none [noteAbc]).data ∧
    fieldStr noteAbc "title" = some "abc" ∧
    fieldStr noteAbc "body" = some "" ∧
    ciSub "a.c".data "abc".data = false ∧
    ciSub "a.c".data "".data = false := by
  refine ⟨?_, rfl, rfl, rfl, rfl⟩
  decide

/-- C3 amended: for every non-empty query free of regex metacharacters, the
search endpoint returns exactly the notes whose `title` or `body`
case-insensitively contains the query as a literal substring; queries
containing metacharacters are instead interpreted as case-insensitive
regular expressions. -/
theorem c3_metafree_search_is_literal (q : String) (coll : List Doc)
    (hq : q ≠ "") (hmeta : ∀ c ∈ q.data, c ∉ pcreMeta) :
    (search_notes q none coll).data =
      serialize_docs (coll.filter (fun d =>
        ciSubField d "title" q || ciSubField d "body" q)) := by
  have hdot : ∀ c ∈ q.data, c ≠ '.' := by
    intro c hc heq
    exact hmeta c hc (by rw [heq]; decide)
  have hfil : List.filter (searchPred q none) coll =
      List.filter (fun d => ciSubField d "title" q || ciSubField d "body" q) coll := by
    apply List.filter_congr
    intro d _
    unfold searchPred regexCond ciSubField
    cases fieldStr d "title" <;> cases fieldStr d "body" <;>
      simp [regexSearch_eq_ciSub q.data hdot]
  show serialize_docs (List.filter (searchPred q none) coll) = _
  rw [hfil]

/-- C3 witness: the spec's own example — a note titled "Hello World" is
matched by the metacharacter-free query "hello". -/
theorem c3_metafree_search_is_literal_witness :
    "hello" ≠ "" ∧ (∀ c ∈ "hello".data, c ∉ pcreMeta) ∧
    (search_notes "hello" none collAB).data =
      serialize_docs (collAB.filter (fun d =>
        ciSubField d "title" "hello" || ciSubField d "body" "hello")) :=
  ⟨by decide, by decide, c3_metafree_search_is_literal "hello" collAB (by decide) (by decide)⟩
